import Mathlib

/-!
Verification of the `nasty` retrieval core.

A shallow embedding of the request model, pagination engine, job queue and
CLI validation of the `nasty` tweet-retrieval tool, together with proofs of
the specified properties.

The repository snapshot ships only the CLI test-suite (`tests/cli/test_search.py`)
and two thin command shims; the core modules (`nasty/request/search.py`,
`nasty/request_executor.py`, the paginator and `nasty/cli/main.py`) are not
part of the snapshot.  Every definition below that embeds one of those missing
modules is therefore modelled from the specification document, faithfully to
its words, and its doc comment says so.  Dates are represented by their civil
day number (days since the proleptic Gregorian epoch), computed from
year/month/day by the standard civil-calendar formula, so that calendar
arithmetic such as "2019-02-01 minus 2019-01-01 = 31 days" is checked for
real.  Tweets are abstracted to their JSON text, the only aspect of the tweet
object model the spec keeps in scope.
-/

/-- Leap-year test of the proleptic Gregorian calendar. -/
def isLeapYear (y : Nat) : Bool :=
  (y % 4 == 0 && y % 100 != 0) || y % 400 == 0

/-- Number of days of month `m` (1-based) in year `y`. -/
def daysInMonth (y m : Nat) : Nat :=
  if m = 2 then (if isLeapYear y then 29 else 28)
  else if m = 4 ∨ m = 6 ∨ m = 9 ∨ m = 11 then 30
  else 31

/-- Civil day number of the Gregorian date `y-m-d` (valid for `y ≥ 1`):
days elapsed since the epoch of the standard `days_from_civil` algorithm,
shifted so the March-based year starts the era. -/
def daysFromCivil (y m d : Nat) : Nat :=
  let y2 := if m ≤ 2 then y - 1 else y
  let era := y2 / 400
  let yoe := y2 % 400
  let mp := if 2 < m then m - 3 else m + 9
  let doy := (153 * mp + 2) / 5 + (d - 1)
  let doe := yoe * 365 + yoe / 4 - yoe / 100 + doy
  era * 146097 + doe

/-- Modelled from the spec: the `SearchFilter` enumeration of
`nasty/request/search.py` (module absent from the snapshot). -/
inductive SearchFilter where
  | top
  | latest
  | photos
  | videos
deriving DecidableEq, Repr

/-- Upper-case name of a filter, as used by the CLI `--filter` flag and the
job-record encoding. -/
def SearchFilter.name : SearchFilter → String
  | .top => "TOP"
  | .latest => "LATEST"
  | .photos => "PHOTOS"
  | .videos => "VIDEOS"

/-- Parse a filter from its upper-case name. -/
def SearchFilter.ofName (s : String) : Option SearchFilter :=
  if s = "TOP" then some .top
  else if s = "LATEST" then some .latest
  else if s = "PHOTOS" then some .photos
  else if s = "VIDEOS" then some .videos
  else none

/-- Modelled from the spec: system default for `filter`. -/
def DEFAULT_FILTER : SearchFilter := .top

/-- Modelled from the spec: system default for `lang`. -/
def DEFAULT_LANG : String := "en"

/-- Modelled from the spec: system default for `max_tweets`
(a bounded default; `none` encodes "unbounded"). -/
def DEFAULT_MAX_TWEETS : Option Nat := some 100

/-- Modelled from the spec: system default for `batch_size`. -/
def DEFAULT_BATCH_SIZE : Nat := 20

/-- Modelled from the spec: the `Search` request variant of
`nasty/request/search.py` (module absent from the snapshot).  `since` and
`until` are civil day numbers; `maxTweets = none` means unbounded. -/
structure Search where
  query : String
  since : Option Nat := none
  until_ : Option Nat := none
  filter : SearchFilter := DEFAULT_FILTER
  lang : String := DEFAULT_LANG
  maxTweets : Option Nat := DEFAULT_MAX_TWEETS
  batchSize : Nat := DEFAULT_BATCH_SIZE
deriving DecidableEq, Repr

/-- Holds when `since < until` or either bound is absent. -/
def dateOrderOk : Option Nat → Option Nat → Bool
  | some s, some u => decide (s < u)
  | _, _ => true

/-- The construction invariant of a `Search` request: non-empty query,
positive batch size, and `since < until` whenever both bounds are present. -/
def Search.Valid (r : Search) : Prop :=
  r.query ≠ "" ∧ 0 < r.batchSize ∧ dateOrderOk r.since r.until_ = true

instance (r : Search) : Decidable r.Valid := by
  unfold Search.Valid
  infer_instance

/-- Modelled from the spec: `Search.to_daily_requests` (module absent from
the snapshot).  Defined when both bounds are present and `since < until`;
yields one sub-request per calendar day of `[since, until)`, in order, each
equal to the original except for the one-day window. -/
def toDailyRequests (r : Search) : Option (List Search) :=
  match r.since, r.until_ with
  | some s, some u =>
      if s < u then
        some ((List.range (u - s)).map fun i =>
          { r with since := some (s + i), until_ := some (s + i + 1) })
      else none
  | _, _ => none

/-- Modelled from the spec: the page loop of the pagination engine (module
absent from the snapshot).  The source is abstracted to the list of pages it
would serve for the request: each recursive step consumes one page response
and follows the continuation to the next.  Items of the current page are
emitted in order; once the running count reaches the bound the final page is
truncated and the retrieval stops. -/
def retrievePages {α : Type} : Option Nat → List (List α) → List α
  | _, [] => []
  | none, page :: rest => page ++ retrievePages none rest
  | some bound, page :: rest =>
      if bound ≤ page.length then page.take bound
      else page ++ retrievePages (some (bound - page.length)) rest

/-- Modelled from the spec: `Paginator.retrieve` — drive the source's
page-at-a-time protocol for one request, bounded by its `max_tweets`. -/
def Paginator.retrieve {α : Type} (r : Search) (source : List (List α)) : List α :=
  retrievePages r.maxTweets source

/-- Modelled from the spec: a `Job` of `nasty/request_executor.py` (module
absent from the snapshot) — one immutable request plus its mutable outcome.
Timestamps are abstracted to naturals, error descriptors to strings. -/
structure Job where
  id : String
  request : Search
  completedAt : Option Nat := none
  exception : Option String := none
deriving DecidableEq, Repr

/-- A job is pending exactly when neither outcome field is set. -/
def Job.isPending (j : Job) : Bool :=
  j.completedAt.isNone && j.exception.isNone

/-- A job is completed when `completed_at` is set. -/
def Job.isCompleted (j : Job) : Bool :=
  j.completedAt.isSome

/-- A job is failed when `exception` is set. -/
def Job.isFailed (j : Job) : Bool :=
  j.exception.isSome

/-- The job invariant: never both `completed_at` and `exception` set. -/
def Job.WF (j : Job) : Prop :=
  ¬ (j.completedAt.isSome = true ∧ j.exception.isSome = true)

/-- Sentinel encoding of `max_tweets` used by the textual forms:
"unbounded" is written as `-1`, a finite bound as itself. -/
def encodeMaxTweets : Option Nat → Int
  | none => -1
  | some n => n

/-- Decoding of the `max_tweets` sentinel: `-1` means unbounded, a
non-negative value is a finite bound, anything else is rejected. -/
def decodeMaxTweets (i : Int) : Option (Option Nat) :=
  if i = -1 then some none
  else if 0 ≤ i then some (some i.toNat)
  else none

/-- Modelled from the spec: the persisted form of a `Request` inside a job
record — the variant tag plus the request's fields, `max_tweets` written
through the `-1` sentinel, the filter through its upper-case name. -/
structure RequestRecord where
  tag : String
  query : String
  since : Option Nat
  until_ : Option Nat
  filterName : String
  lang : String
  maxTweetsEnc : Int
  batchSize : Nat
deriving DecidableEq, Repr

/-- Serialize a `Search` request to its job-record form. -/
def encodeRequest (r : Search) : RequestRecord :=
  ⟨"Search", r.query, r.since, r.until_, r.filter.name, r.lang,
    encodeMaxTweets r.maxTweets, r.batchSize⟩

/-- Deserialize a request record, re-validating the construction invariants
(`ValidationError` on a malformed record). -/
def decodeRequest (rec : RequestRecord) : Option Search :=
  if rec.tag = "Search" then
    match SearchFilter.ofName rec.filterName, decodeMaxTweets rec.maxTweetsEnc with
    | some f, some mt =>
        if rec.query ≠ "" ∧ 0 < rec.batchSize ∧
            dateOrderOk rec.since rec.until_ = true then
          some ⟨rec.query, rec.since, rec.until_, f, rec.lang, mt, rec.batchSize⟩
        else none
    | _, _ => none
  else none

/-- Modelled from the spec: one persisted line of the `JobStore` file —
`id`, the encoded request, and the two optional outcome fields. -/
structure JobRecord where
  id : String
  request : RequestRecord
  completedAt : Option Nat
  exception : Option String
deriving DecidableEq, Repr

/-- Serialize a `Job` to its persisted line. -/
def encodeJob (j : Job) : JobRecord :=
  ⟨j.id, encodeRequest j.request, j.completedAt, j.exception⟩

/-- Deserialize a persisted line back into a `Job`. -/
def decodeJob (rec : JobRecord) : Option Job :=
  (decodeRequest rec.request).map fun r =>
    ⟨rec.id, r, rec.completedAt, rec.exception⟩

/-- Modelled from the spec: `RequestExecutor.submit` — wrap the request in a
fresh pending job with the supplied fresh id and append it to the in-memory
list.  No I/O. -/
def submit (jobs : List Job) (newId : String) (r : Search) : List Job :=
  jobs ++ [{ id := newId, request := r }]

/-- Modelled from the spec: `RequestExecutor.dump_requests` — serialize every
job currently in memory, one record per line, in current order.  The file is
abstracted to its list of lines. -/
def dumpRequests (jobs : List Job) : List JobRecord :=
  jobs.map encodeJob

/-- Modelled from the spec: the merge step of `load_requests` — walk the
decoded file jobs in file order, appending each one whose id is not already
present, never touching the jobs already in memory. -/
def mergeJobs (jobs : List Job) (fileJobs : List Job) : List Job :=
  fileJobs.foldl
    (fun acc j => if acc.any (fun j2 => j2.id == j.id) then acc else acc ++ [j])
    jobs

/-- Parse every line of the file into a `Job`, failing as a whole if any
line is invalid. -/
def decodeLines : List JobRecord → Option (List Job)
  | [] => some []
  | rec :: rest =>
      match decodeJob rec, decodeLines rest with
      | some j, some js => some (j :: js)
      | _, _ => none

/-- Modelled from the spec: `RequestExecutor.load_requests` — parse every
line of the file into a `Job` (failing as a whole if any line is invalid,
leaving memory untouched), then merge into the in-memory list. -/
def loadRequests (jobs : List Job) (fileLines : List JobRecord) : Option (List Job) :=
  (decodeLines fileLines).map (mergeJobs jobs)

/-- Modelled from the spec: running one pending job — drive the paginator to
completion; on success stamp `completed_at`, on a failure escaping the
paginator capture it into `exception`.  The retrieval outcome is abstracted
to an oracle giving, per request, either success (`none`) or the
error descriptor (`some e`). -/
def runJob (outcome : Search → Option String) (now : Nat) (j : Job) : Job :=
  match outcome j.request with
  | none => { j with completedAt := some now }
  | some e => { j with exception := some e }

/-- Modelled from the spec: `RequestExecutor.execute_pending` — for each job
in list order, run it if it is still pending and leave it untouched
otherwise; a failure is recorded on its own job and the walk continues. -/
def executePending (outcome : Search → Option String) (now : Nat)
    (jobs : List Job) : List Job :=
  jobs.map fun j => if j.isPending then runJob outcome now j else j

/-- Modelled from the spec: the raw flag values of one `nasty search`
invocation after tokenization, before any validation. -/
structure RawArgs where
  query : Option String := none
  since : Option String := none
  until_ : Option String := none
  filter : Option String := none
  lang : Option String := none
  maxTweets : Option String := none
  batchSize : Option String := none
  toExecutor : Option String := none
  daily : Bool := false
deriving DecidableEq, Repr

/-- Modelled from the spec: the flag scanner of the `search` subcommand —
each value flag consumes the following token, `--daily` stands alone; an
unknown token or a value flag at the end of the line is a usage error
(`none`). -/
def scanArgs : List String → RawArgs → Option RawArgs
  | [], a => some a
  | "--query" :: v :: rest, a => scanArgs rest { a with query := some v }
  | "--since" :: v :: rest, a => scanArgs rest { a with since := some v }
  | "--until" :: v :: rest, a => scanArgs rest { a with until_ := some v }
  | "--filter" :: v :: rest, a => scanArgs rest { a with filter := some v }
  | "--lang" :: v :: rest, a => scanArgs rest { a with lang := some v }
  | "--max-tweets" :: v :: rest, a => scanArgs rest { a with maxTweets := some v }
  | "--batch-size" :: v :: rest, a => scanArgs rest { a with batchSize := some v }
  | "--to-executor" :: v :: rest, a => scanArgs rest { a with toExecutor := some v }
  | "--daily" :: rest, a => scanArgs rest { a with daily := true }
  | _, _ => none

/-- Value of a decimal digit character, or `none`. -/
def digitVal (c : Char) : Option Nat :=
  if '0' ≤ c ∧ c ≤ '9' then some (c.toNat - '0'.toNat) else none

/-- Read a decimal numeral from a character list, accumulating left to
right; any non-digit rejects the whole text. -/
def natFromChars : List Char → Nat → Option Nat
  | [], acc => some acc
  | c :: cs, acc =>
      match digitVal c with
      | some d => natFromChars cs (10 * acc + d)
      | none => none

/-- Parse a non-empty all-digit text as a natural number. -/
def parseNatText : List Char → Option Nat
  | [] => none
  | c :: cs => natFromChars (c :: cs) 0

/-- Split a character list on the dash separator. -/
def splitOnDash : List Char → List (List Char)
  | [] => [[]]
  | '-' :: cs => [] :: splitOnDash cs
  | c :: cs =>
      match splitOnDash cs with
      | g :: gs => (c :: g) :: gs
      | [] => [[c]]

/-- Parse a `YYYY-MM-DD` date string to its civil day number; reject
anything not of that shape or outside the calendar. -/
def parseDate (s : String) : Option Nat :=
  match (splitOnDash s.data).map parseNatText with
  | [some y, some m, some d] =>
      if 1 ≤ y ∧ 1 ≤ m ∧ m ≤ 12 ∧ 1 ≤ d ∧ d ≤ daysInMonth y m then
        some (daysFromCivil y m d)
      else none
  | _ => none

/-- Parse a (possibly negative) integer literal; reject anything else. -/
def parseIntArg (s : String) : Option Int :=
  match s.data with
  | '-' :: c :: cs => (parseNatText (c :: cs)).map fun n => -(n : Int)
  | cs => (parseNatText cs).map fun n => (n : Int)

/-- Modelled from the spec: the validated outcome of argument parsing —
the constructed request plus the operational flags. -/
structure ParsedSearchArgs where
  request : Search
  toExecutor : Option String
  daily : Bool
deriving DecidableEq, Repr

/-- Parse an optional date flag, reporting the flag's name on error. -/
def parseOptDate (flag : String) : Option String → Except String (Option Nat)
  | none => .ok none
  | some s =>
      match parseDate s with
      | some d => .ok (some d)
      | none => .error ("argument " ++ flag ++ ": invalid date value: " ++ s)

/-- Equality of parse results is decidable, enabling concrete evaluation. -/
instance exceptDecEq {e a : Type} [DecidableEq e] [DecidableEq a] :
    DecidableEq (Except e a) := fun x y =>
  match x, y with
  | .error e1, .error e2 =>
      if h : e1 = e2 then .isTrue (by rw [h])
      else .isFalse (by intro hc; cases hc; exact h rfl)
  | .error _, .ok _ => .isFalse (by intro hc; cases hc)
  | .ok _, .error _ => .isFalse (by intro hc; cases hc)
  | .ok v1, .ok v2 =>
      if h : v1 = v2 then .isTrue (by rw [h])
      else .isFalse (by intro hc; cases hc; exact h rfl)

/-- Parse the `--filter` flag, defaulting when absent. -/
def parseFilterArg : Option String → Except String SearchFilter
  | none => .ok DEFAULT_FILTER
  | some fs =>
      match SearchFilter.ofName fs with
      | some f => .ok f
      | none => .error ("argument -f/--filter: invalid choice: " ++ fs)

/-- Parse the `--max-tweets` flag, defaulting when absent; the text must be
an integer, either the `-1` sentinel (unbounded) or a non-negative count. -/
def parseMaxTweetsArg : Option String → Except String (Option Nat)
  | none => .ok DEFAULT_MAX_TWEETS
  | some ms =>
      match parseIntArg ms with
      | none => .error ("argument -m/--max-tweets: invalid int value: " ++ ms)
      | some i =>
          match decodeMaxTweets i with
          | some mt => .ok mt
          | none => .error "argument -m/--max-tweets: expected a count or the sentinel -1"

/-- Parse the `--batch-size` flag, defaulting when absent; the text must be
a positive integer. -/
def parseBatchSizeArg : Option String → Except String Nat
  | none => .ok DEFAULT_BATCH_SIZE
  | some bss =>
      match parseIntArg bss with
      | none => .error ("argument -b/--batch-size: invalid int value: " ++ bss)
      | some i =>
          if 0 < i then .ok i.toNat
          else .error "argument -b/--batch-size: must be positive"

/-- Modelled from the spec: validation of the scanned flags and construction
of the `Search` request — required query, well-formed dates, integer
`--max-tweets` (with the `-1` sentinel) and `--batch-size`, a known filter
name, positive batch size, `since < until`, and `--daily` only together with
`--to-executor`, `--since` and `--until`. -/
def validateArgs (a : RawArgs) : Except String ParsedSearchArgs :=
  match a.query with
  | none => .error "the following arguments are required: -q/--query"
  | some q =>
  match parseOptDate "-s/--since" a.since with
  | .error e => .error e
  | .ok s =>
  match parseOptDate "-u/--until" a.until_ with
  | .error e => .error e
  | .ok u =>
  match parseFilterArg a.filter with
  | .error e => .error e
  | .ok f =>
  match parseMaxTweetsArg a.maxTweets with
  | .error e => .error e
  | .ok mt =>
  match parseBatchSizeArg a.batchSize with
  | .error e => .error e
  | .ok bs =>
  if q = "" then
    .error "argument -q/--query: query must be non-empty"
  else if dateOrderOk s u = false then
    .error "argument -u/--until: until must be after since"
  else if a.daily = true ∧ a.toExecutor = none then
    .error "-d/--daily requires -e/--to-executor"
  else if a.daily = true ∧ (a.since = none ∨ a.until_ = none) then
    .error "-d/--daily requires -s/--since and -u/--until"
  else
    .ok ⟨⟨q, s, u, f, a.lang.getD DEFAULT_LANG, mt, bs⟩, a.toExecutor, a.daily⟩

/-- The usage-error text printed to standard error by the `search`
subcommand before exiting. -/
def usageMessage (msg : String) : String :=
  "usage: nasty search [-h] -q <QUERY> [-s <DATE>] [-u <DATE>] [-f <FILTER>]"
    ++ "\x0anasty search: error: " ++ msg

/-- Modelled from the spec: the observable outcome of the `search`
subcommand's argument phase — either exit with a status code and a usage
message on standard error, before any network activity, or proceed to run
with a validated request. -/
inductive CliResult where
  | usageError (code : Nat) (message : String)
  | run (parsed : ParsedSearchArgs)
deriving DecidableEq, Repr

/-- Modelled from the spec: `main` restricted to the `search` subcommand —
scan the flags, validate them, and either exit with status 2 and a usage
message or proceed with the constructed request. -/
def mainSearch (tokens : List String) : CliResult :=
  match scanArgs tokens {} with
  | none => .usageError 2 (usageMessage "unrecognized or incomplete arguments")
  | some raw =>
      match validateArgs raw with
      | .error msg => .usageError 2 (usageMessage msg)
      | .ok parsed => .run parsed

/-- Modelled from the spec: the result-printing loop of a direct run — each
retrieved tweet's JSON text is printed on its own line, in emission order.
Standard output is modelled as the list of printed lines. -/
def printResults (ts : List String) : List String :=
  ts.foldl (fun out t => out ++ [t ++ "\x0a"]) []

/-- Modelled from the spec: what a validated `search` run writes to standard
output, given the page stream the source serves — the retrieved tweets one
JSON line each on a direct run, nothing when writing to an executor file. -/
def mainStdout (p : ParsedSearchArgs) (source : List (List String)) : List String :=
  match p.toExecutor with
  | none => printResults (Paginator.retrieve p.request source)
  | some _ => []


/-- Prefix test on the character level (the core `String` functions do not
evaluate inside the kernel). -/
def textStartsWith (s p : String) : Bool :=
  p.data.isPrefixOf s.data

/-- The validation failures named by the spec: missing query, malformed
date, non-integer `max_tweets` or `batch_size`, and the incomplete
`--daily` flag combinations. -/
def InvalidRawArgs (a : RawArgs) : Prop :=
  a.query = none ∨
  (∃ s, a.since = some s ∧ parseDate s = none) ∨
  (∃ s, a.until_ = some s ∧ parseDate s = none) ∨
  (∃ s, a.maxTweets = some s ∧ parseIntArg s = none) ∨
  (∃ s, a.batchSize = some s ∧ parseIntArg s = none) ∨
  (a.daily = true ∧ (a.toExecutor = none ∨ a.since = none ∨ a.until_ = none))

/-- The request of the daily-split scenario: January 2019. -/
def dailySearchReq : Search :=
  { query := "trump",
    since := some (daysFromCivil 2019 1 1),
    until_ := some (daysFromCivil 2019 2 1) }

/-- The first job of the merge scenario (submitted and dumped earlier). -/
def jobA : Job := { id := "id-a", request := { query := "donald" } }

/-- The second job of the merge scenario (already in memory). -/
def jobB : Job := { id := "id-b", request := { query := "trump" } }

/-- A pending job for the execution witnesses. -/
def jobPendingC : Job := { id := "id-c", request := { query := "trump" } }

/-- A completed job for the execution witnesses. -/
def jobDoneD : Job :=
  { id := "id-d", request := { query := "donald" }, completedAt := some 5 }

/-- An outcome oracle failing exactly the query "trump". -/
def failTrump (r : Search) : Option String :=
  if r.query = "trump" then some "boom" else none

/-- The parsed arguments of the stdout witness: a direct run capped at two
tweets. -/
def parsedDirectRun : ParsedSearchArgs :=
  { request := { query := "trump", maxTweets := some 2 },
    toExecutor := none, daily := false }

set_option maxRecDepth 100000

/-! ## Helper lemmas -/

theorem retrievePages_some_eq_take {α : Type} (n : Nat) (ps : List (List α)) :
    retrievePages (some n) ps = ps.flatten.take n := by
  induction ps generalizing n with
  | nil => simp [retrievePages]
  | cons p rest ih =>
      simp only [retrievePages, List.flatten_cons]
      rw [List.take_append_eq_append_take]
      split
      · have h0 : n - p.length = 0 := by omega
        simp [h0]
      · rw [ih]
        conv_rhs => rw [List.take_of_length_le (by omega)]

theorem retrievePages_none_eq_flatten {α : Type} (ps : List (List α)) :
    retrievePages none ps = ps.flatten := by
  induction ps with
  | nil => rfl
  | cons p rest ih => simp [retrievePages, ih]

/-! ## C1 and C2 -/

/-- C1: for every request with `max_tweets = N`, `Paginator.retrieve` emits
at most `N` items regardless of the source's page sizes or page count — it
is exactly the `N`-prefix of the full item stream, truncating the final
page; with `max_tweets` unbounded it emits every item of every page until
the source is exhausted. -/
theorem paginator_retrieve_bound {α : Type} (r : Search) (src : List (List α)) :
    (∀ n, r.maxTweets = some n →
      Paginator.retrieve r src = src.flatten.take n ∧
      (Paginator.retrieve r src).length ≤ n) ∧
    (r.maxTweets = none → Paginator.retrieve r src = src.flatten) := by
  constructor
  · intro n hn
    have h : Paginator.retrieve r src = src.flatten.take n := by
      rw [Paginator.retrieve, hn, retrievePages_some_eq_take]
    refine ⟨h, ?_⟩
    rw [h]
    simp
  · intro hn
    rw [Paginator.retrieve, hn, retrievePages_none_eq_flatten]

/-- Witness for C1: a request capped at 10 against four pages of three
items emits exactly the first ten items. -/
theorem paginator_retrieve_bound_witness :
    Paginator.retrieve ({ query := "trump", maxTweets := some 10 } : Search)
        ([[1, 2, 3], [4, 5, 6], [7, 8, 9], [10, 11, 12]] : List (List Nat)) =
      ([[1, 2, 3], [4, 5, 6], [7, 8, 9], [10, 11, 12]] : List (List Nat)).flatten.take 10 ∧
    (Paginator.retrieve ({ query := "trump", maxTweets := some 10 } : Search)
        ([[1, 2, 3], [4, 5, 6], [7, 8, 9], [10, 11, 12]] : List (List Nat))).length ≤ 10 :=
  (paginator_retrieve_bound _ _).1 10 rfl

/-- C2: for a `Search` whose bounds are both present with `since < until`,
`to_daily_requests` yields exactly `until - since` sub-requests, one per
calendar day of `[since, until)` in order, each equal to the original except
for the one-day window; it fails when either bound is absent or
`since ≥ until`. -/
theorem to_daily_requests_spec (r : Search) :
    (∀ s u, r.since = some s → r.until_ = some u → s < u →
      ∃ l, toDailyRequests r = some l ∧ l.length = u - s ∧
        ∀ i (hi : i < l.length),
          l.get ⟨i, hi⟩ =
            { r with since := some (s + i), until_ := some (s + i + 1) }) ∧
    ((r.since = none ∨ r.until_ = none ∨
        ∃ s u, r.since = some s ∧ r.until_ = some u ∧ u ≤ s) →
      toDailyRequests r = none) := by
  constructor
  · intro s u hs hu h
    refine ⟨(List.range (u - s)).map fun i =>
        { r with since := some (s + i), until_ := some (s + i + 1) }, ?_, ?_, ?_⟩
    · simp [toDailyRequests, hs, hu, h]
    · simp
    · intro i hi
      simp only [List.length_map, List.length_range] at hi
      simp [List.get_eq_getElem, List.getElem_map, List.getElem_range]
  · intro h
    rcases h with h | h | ⟨s, u, hs, hu, h⟩
    · simp [toDailyRequests, h]
    · cases hs : r.since <;> simp [toDailyRequests, hs, h]
    · simp [toDailyRequests, hs, hu, Nat.not_lt.2 h]

/-- Witness for C2: splitting `since = 2019-01-01, until = 2019-02-01`
produces a job list of length `2019-02-01 − 2019-01-01`, which is 31. -/
theorem to_daily_requests_spec_witness :
    (∃ l, toDailyRequests dailySearchReq = some l ∧
      l.length = daysFromCivil 2019 2 1 - daysFromCivil 2019 1 1 ∧
      ∀ i (hi : i < l.length),
        l.get ⟨i, hi⟩ =
          { dailySearchReq with
              since := some (daysFromCivil 2019 1 1 + i),
              until_ := some (daysFromCivil 2019 1 1 + i + 1) }) ∧
    daysFromCivil 2019 2 1 - daysFromCivil 2019 1 1 = 31 :=
  ⟨(to_daily_requests_spec dailySearchReq).1 _ _ rfl rfl (by decide), by decide⟩

/-! ## Merge and round-trip lemmas -/

theorem mergeJobs_cons (jobs : List Job) (j : Job) (rest : List Job) :
    mergeJobs jobs (j :: rest) =
      if jobs.any (fun j2 => j2.id == j.id) then mergeJobs jobs rest
      else mergeJobs (jobs ++ [j]) rest := by
  unfold mergeJobs
  rw [List.foldl_cons]
  by_cases hc : jobs.any (fun j2 => j2.id == j.id) <;> simp [hc]

theorem mergeJobs_eq_append_filter (fileJobs : List Job) (jobs : List Job)
    (hf : (fileJobs.map Job.id).Nodup) :
    mergeJobs jobs fileJobs =
      jobs ++ fileJobs.filter (fun j => !(jobs.any fun j2 => j2.id == j.id)) := by
  induction fileJobs generalizing jobs with
  | nil => simp [mergeJobs]
  | cons j rest ih =>
      rw [List.map_cons, List.nodup_cons] at hf
      rw [mergeJobs_cons, List.filter_cons]
      by_cases hc : jobs.any (fun j2 => j2.id == j.id)
      · rw [if_pos hc, ih _ hf.2]
        simp [hc]
      · rw [if_neg hc, ih _ hf.2]
        have hrest : rest.filter (fun x => !((jobs ++ [j]).any fun j2 => j2.id == x.id)) =
            rest.filter (fun x => !(jobs.any fun j2 => j2.id == x.id)) := by
          apply List.filter_congr
          intro x hx
          have hne : ¬ (j.id == x.id) = true := by
            intro hbeq
            exact hf.1 (by
              rw [List.mem_map]
              exact ⟨x, hx, (eq_of_beq hbeq).symm⟩)
          simp [List.any_append, hne]
        rw [hrest]
        simp [hc]

theorem mergeJobs_id_nodup (jobs fileJobs : List Job)
    (hj : (jobs.map Job.id).Nodup) (hf : (fileJobs.map Job.id).Nodup) :
    ((mergeJobs jobs fileJobs).map Job.id).Nodup := by
  rw [mergeJobs_eq_append_filter _ _ hf, List.map_append, List.nodup_append]
  refine ⟨hj, hf.sublist ((List.filter_sublist _).map _), ?_⟩
  intro x hx hx2
  rw [List.mem_map] at hx hx2
  obtain ⟨j2, hj2, hj2id⟩ := hx
  obtain ⟨jb, hjb, hjbid⟩ := hx2
  rw [List.mem_filter] at hjb
  have : jobs.any (fun j0 => j0.id == jb.id) = true := by
    rw [List.any_eq_true]
    exact ⟨j2, hj2, by rw [beq_iff_eq, hj2id, hjbid]⟩
  simp [this] at hjb

theorem SearchFilter.ofName_name (f : SearchFilter) :
    SearchFilter.ofName f.name = some f := by
  cases f <;> rfl

theorem decodeMaxTweets_encodeMaxTweets (mt : Option Nat) :
    decodeMaxTweets (encodeMaxTweets mt) = some mt := by
  cases mt with
  | none => rfl
  | some n =>
      rw [encodeMaxTweets, decodeMaxTweets, if_neg (by omega), if_pos (by omega)]
      simp

theorem decodeRequest_encodeRequest (r : Search) (hr : r.Valid) :
    decodeRequest (encodeRequest r) = some r := by
  obtain ⟨h1, h2, h3⟩ := hr
  obtain ⟨q, s, u, f, lg, mt, bs⟩ := r
  simp_all [decodeRequest, encodeRequest, SearchFilter.ofName_name,
    decodeMaxTweets_encodeMaxTweets]

theorem decodeJob_encodeJob (j : Job) (hj : j.request.Valid) :
    decodeJob (encodeJob j) = some j := by
  obtain ⟨i, r, c, e⟩ := j
  simp [decodeJob, encodeJob, decodeRequest_encodeRequest _ hj]

theorem decodeLines_dumpRequests (jobs : List Job)
    (h : ∀ j ∈ jobs, j.request.Valid) :
    decodeLines (dumpRequests jobs) = some jobs := by
  induction jobs with
  | nil => rfl
  | cons j rest ih =>
      have h1 : decodeJob (encodeJob j) = some j :=
        decodeJob_encodeJob _ (h j (by simp))
      have h2 := ih fun j2 hj2 => h j2 (by simp [hj2])
      simp only [dumpRequests, List.map_cons] at h2 ⊢
      rw [decodeLines, h1, h2]

/-! ## C3 and C4 -/

/-- C3: `load_requests` never discards jobs already in memory — given that
every file line decodes, the loaded list is exactly the in-memory jobs (in
their order) followed by the decoded file jobs whose id is not already
present, in file order, and its ids are duplicate-free. -/
theorem load_requests_merge_spec (jobs : List Job) (recs : List JobRecord)
    (decoded : List Job) (hdec : decodeLines recs = some decoded)
    (hj : (jobs.map Job.id).Nodup) (hf : (decoded.map Job.id).Nodup) :
    loadRequests jobs recs =
      some (jobs ++ decoded.filter (fun j => !(jobs.any fun j2 => j2.id == j.id))) ∧
    ((jobs ++ decoded.filter (fun j => !(jobs.any fun j2 => j2.id == j.id))).map
        Job.id).Nodup := by
  have hm := mergeJobs_eq_append_filter decoded jobs hf
  constructor
  · rw [loadRequests, hdec]
    simp [hm]
  · rw [← hm]
    exact mergeJobs_id_nodup jobs decoded hj hf

/-- Witness for C3: loading the dump of job A into an executor already
holding job B yields `[B, A]` — two distinct jobs, memory first. -/
theorem load_requests_merge_spec_witness :
    decodeLines (dumpRequests [jobA]) = some [jobA] ∧
    loadRequests [jobB] (dumpRequests [jobA]) = some [jobB, jobA] :=
  have h := load_requests_merge_spec [jobB] (dumpRequests [jobA]) [jobA]
    (by decide) (by decide) (by decide)
  ⟨by decide, h.1.trans (by decide)⟩

/-- C4: serializing a valid request through the job-record encoding and
deserializing yields it back, and `dump_requests` followed by
`load_requests` on an otherwise-empty executor reproduces the same ordered
job list. -/
theorem request_job_roundtrip (r : Search) (hr : r.Valid) (jobs : List Job)
    (hjobs : ∀ j ∈ jobs, j.request.Valid) (hids : (jobs.map Job.id).Nodup) :
    decodeRequest (encodeRequest r) = some r ∧
    loadRequests [] (dumpRequests jobs) = some jobs := by
  refine ⟨decodeRequest_encodeRequest r hr, ?_⟩
  rw [loadRequests, decodeLines_dumpRequests jobs hjobs]
  simp [mergeJobs_eq_append_filter jobs [] hids]

/-- Witness for C4: a default `Search("trump")` round-trips, and an executor
holding only job A dumps and reloads to the same singleton list. -/
theorem request_job_roundtrip_witness :
    decodeRequest (encodeRequest { query := "trump" }) = some { query := "trump" } ∧
    loadRequests [] (dumpRequests [jobA]) = some [jobA] :=
  request_job_roundtrip { query := "trump" } (by decide) [jobA]
    (by decide) (by decide)

/-! ## Execution lemmas -/

theorem Job.isPending_iff (j : Job) :
    j.isPending = true ↔ j.completedAt = none ∧ j.exception = none := by
  simp [Job.isPending, Option.isNone_iff_eq_none]

theorem runJob_not_pending (outcome : Search → Option String) (now : Nat)
    (j : Job) : (runJob outcome now j).isPending = false := by
  unfold runJob
  cases outcome j.request <;> simp [Job.isPending]

theorem executePending_length (outcome : Search → Option String) (now : Nat)
    (jobs : List Job) : (executePending outcome now jobs).length = jobs.length := by
  simp [executePending]

theorem executePending_get (outcome : Search → Option String) (now : Nat)
    (jobs : List Job) (i : Nat) (hi : i < jobs.length)
    (hi2 : i < (executePending outcome now jobs).length) :
    (executePending outcome now jobs).get ⟨i, hi2⟩ =
      if (jobs.get ⟨i, hi⟩).isPending then runJob outcome now (jobs.get ⟨i, hi⟩)
      else jobs.get ⟨i, hi⟩ := by
  simp [executePending, List.get_eq_getElem, List.getElem_map]

theorem executePending_step_idem (outcome : Search → Option String) (now : Nat)
    (j : Job) :
    (if (if j.isPending then runJob outcome now j else j).isPending then
        runJob outcome now (if j.isPending then runJob outcome now j else j)
      else if j.isPending then runJob outcome now j else j) =
      if j.isPending then runJob outcome now j else j := by
  by_cases hp : j.isPending = true
  · simp [hp, runJob_not_pending]
  · rw [Bool.not_eq_true] at hp
    simp [hp]

/-! ## C5 and C6 -/

/-- C5: with the job invariant (never both outcome fields set), every job is
in exactly one of the states pending, completed, failed; the invariant is
preserved by `execute_pending`; and the only transitions `execute_pending`
performs are pending→completed and pending→failed (keeping id and request),
while non-pending jobs are left untouched — both terminal states are final. -/
theorem job_state_machine_spec (outcome : Search → Option String) (now : Nat)
    (jobs : List Job) (hwf : ∀ j ∈ jobs, j.WF) :
    (∀ j ∈ jobs,
      (j.isPending = true ∧ j.isCompleted = false ∧ j.isFailed = false) ∨
      (j.isPending = false ∧ j.isCompleted = true ∧ j.isFailed = false) ∨
      (j.isPending = false ∧ j.isCompleted = false ∧ j.isFailed = true)) ∧
    (∀ j2 ∈ executePending outcome now jobs, j2.WF) ∧
    (∀ i (hi : i < jobs.length) (hi2 : i < (executePending outcome now jobs).length),
      ((jobs.get ⟨i, hi⟩).isPending = false →
        (executePending outcome now jobs).get ⟨i, hi2⟩ = jobs.get ⟨i, hi⟩) ∧
      ((jobs.get ⟨i, hi⟩).isPending = true →
        (((executePending outcome now jobs).get ⟨i, hi2⟩).isCompleted = true ∧
            ((executePending outcome now jobs).get ⟨i, hi2⟩).isFailed = false ∨
          ((executePending outcome now jobs).get ⟨i, hi2⟩).isCompleted = false ∧
            ((executePending outcome now jobs).get ⟨i, hi2⟩).isFailed = true) ∧
        ((executePending outcome now jobs).get ⟨i, hi2⟩).id = (jobs.get ⟨i, hi⟩).id ∧
        ((executePending outcome now jobs).get ⟨i, hi2⟩).request =
          (jobs.get ⟨i, hi⟩).request)) := by
  refine ⟨?_, ?_, ?_⟩
  · intro j hj
    have hw := hwf j hj
    obtain ⟨i, r, c, e⟩ := j
    cases c <;> cases e <;>
      simp_all [Job.isPending, Job.isCompleted, Job.isFailed, Job.WF]
  · intro j2 hj2
    rw [executePending, List.mem_map] at hj2
    obtain ⟨j, hj, hj2eq⟩ := hj2
    subst hj2eq
    by_cases hp : j.isPending = true
    · rw [if_pos hp]
      obtain ⟨hc, he⟩ := (Job.isPending_iff j).1 hp
      unfold runJob
      cases outcome j.request <;> simp [Job.WF, hc, he]
    · rw [Bool.not_eq_true] at hp
      rw [if_neg (by simp [hp])]
      exact hwf j hj
  · intro i hi hi2
    rw [executePending_get outcome now jobs i hi hi2]
    constructor
    · intro hp
      simp only [List.get_eq_getElem] at hp
      rw [if_neg (by simp [hp])]
    · intro hp
      rw [if_pos hp]
      obtain ⟨hc, he⟩ := (Job.isPending_iff _).1 hp
      simp only [List.get_eq_getElem] at hc he
      refine ⟨?_, ?_, ?_⟩ <;>
        · unfold runJob
          cases outcome (jobs.get ⟨i, hi⟩).request <;>
            simp [Job.isCompleted, Job.isFailed, hc, he]

/-- Witness for C5: a two-job list (one pending, one completed) satisfies
the trichotomy, and one `execute_pending` step fails the pending job while
leaving the completed one untouched. -/
theorem job_state_machine_spec_witness :
    (∀ j ∈ [jobPendingC, jobDoneD],
      (j.isPending = true ∧ j.isCompleted = false ∧ j.isFailed = false) ∨
      (j.isPending = false ∧ j.isCompleted = true ∧ j.isFailed = false) ∨
      (j.isPending = false ∧ j.isCompleted = false ∧ j.isFailed = true)) ∧
    (∀ j2 ∈ executePending failTrump 9 [jobPendingC, jobDoneD], j2.WF) :=
  have h := job_state_machine_spec failTrump 9 [jobPendingC, jobDoneD]
    (by intro j hj; fin_cases hj <;> simp [Job.WF, jobPendingC, jobDoneD])
  ⟨h.1, h.2.1⟩

/-- C6: `execute_pending` keeps the list length, runs exactly the jobs whose
`completed_at` and `exception` are both unset (in list order, each job's
outcome independent of every other job's), leaves every non-pending job
untouched, and running it again changes nothing (idempotent resume). -/
theorem execute_pending_spec (outcome : Search → Option String) (now : Nat)
    (jobs : List Job) :
    (executePending outcome now jobs).length = jobs.length ∧
    (∀ i (hi : i < jobs.length) (hi2 : i < (executePending outcome now jobs).length),
      ((jobs.get ⟨i, hi⟩).completedAt = none ∧ (jobs.get ⟨i, hi⟩).exception = none →
        (executePending outcome now jobs).get ⟨i, hi2⟩ =
          runJob outcome now (jobs.get ⟨i, hi⟩)) ∧
      (¬ ((jobs.get ⟨i, hi⟩).completedAt = none ∧ (jobs.get ⟨i, hi⟩).exception = none) →
        (executePending outcome now jobs).get ⟨i, hi2⟩ = jobs.get ⟨i, hi⟩)) ∧
    executePending outcome now (executePending outcome now jobs) =
      executePending outcome now jobs := by
  refine ⟨executePending_length outcome now jobs, ?_, ?_⟩
  · intro i hi hi2
    rw [executePending_get outcome now jobs i hi hi2]
    constructor
    · intro hp
      rw [if_pos ((Job.isPending_iff _).2 hp)]
    · intro hp
      have hnp : (jobs.get ⟨i, hi⟩).isPending = false := by
        rw [← Bool.not_eq_true, Job.isPending_iff]
        exact hp
      simp only [List.get_eq_getElem] at hnp
      rw [if_neg (by simp [hnp])]
  · unfold executePending
    rw [List.map_map]
    apply List.map_congr_left
    intro j hj
    exact executePending_step_idem outcome now j

/-- Witness for C6: on the two-job list, the completed job is skipped and
a second `execute_pending` run is a no-op. -/
theorem execute_pending_spec_witness :
    (executePending failTrump 9 [jobPendingC, jobDoneD]).length =
      ([jobPendingC, jobDoneD] : List Job).length ∧
    executePending failTrump 9 (executePending failTrump 9 [jobPendingC, jobDoneD]) =
      executePending failTrump 9 [jobPendingC, jobDoneD] :=
  have h := execute_pending_spec failTrump 9 [jobPendingC, jobDoneD]
  ⟨h.1, h.2.2⟩

/-! ## C7 -/

/-- C7: the "unbounded" value of `max_tweets` is carried by the dedicated
sentinel `-1`, distinct from the encoding of every finite count; decoding
the sentinel — directly or through the CLI text form — yields "unbounded"
again, never zero nor any finite bound. -/
theorem max_tweets_sentinel_spec :
    (∀ mt, decodeMaxTweets (encodeMaxTweets mt) = some mt) ∧
    encodeMaxTweets none = -1 ∧
    (∀ n, encodeMaxTweets (some n) ≠ encodeMaxTweets none) ∧
    decodeMaxTweets (-1) = some none ∧
    (∀ n : Nat, decodeMaxTweets (-1) ≠ some (some n)) ∧
    (parseIntArg "-1").bind decodeMaxTweets = some none ∧
    parseMaxTweetsArg (some "-1") = .ok none := by
  refine ⟨decodeMaxTweets_encodeMaxTweets, rfl, ?_, rfl, ?_, by decide, by decide⟩
  · intro n h
    rw [encodeMaxTweets, encodeMaxTweets] at h
    omega
  · intro n h
    rw [decodeMaxTweets, if_pos rfl] at h
    simp at h

/-- Witness for C7: the inner negative statements applied at the finite
count 0 — its encoding is not the sentinel, and the sentinel does not decode
to the bound 0. -/
theorem max_tweets_sentinel_spec_witness :
    encodeMaxTweets (some 0) ≠ encodeMaxTweets none ∧
    decodeMaxTweets (-1) ≠ some (some 0) :=
  ⟨max_tweets_sentinel_spec.2.2.1 0, max_tweets_sentinel_spec.2.2.2.2.1 0⟩

/-! ## C8 and C9 -/

theorem validateArgs_ok_not_invalid (a : RawArgs) (p : ParsedSearchArgs)
    (h : validateArgs a = .ok p) : ¬ InvalidRawArgs a := by
  intro inv
  unfold validateArgs at h
  repeat' split at h
  all_goals first
    | exact Except.noConfusion h
    | (rcases inv with hq | ⟨s0, hs0, hps0⟩ | ⟨s0, hs0, hps0⟩ | ⟨s0, hs0, hps0⟩ |
        ⟨s0, hs0, hps0⟩ | ⟨hd, hcomb⟩ <;>
        simp_all [parseOptDate, parseFilterArg, parseMaxTweetsArg, parseBatchSizeArg])

/-- C8: every `search` invocation whose flags fail validation — missing
query, malformed date, non-integer `--max-tweets` or `--batch-size`,
incomplete `--daily` combinations, or a malformed flag sequence — makes
`main` exit with the non-zero status 2 and a usage-error message, never
reaching the run phase (and hence performing no network activity). -/
theorem cli_invalid_args_exit (tokens : List String)
    (h : scanArgs tokens {} = none ∨
      ∃ a, scanArgs tokens {} = some a ∧ InvalidRawArgs a) :
    ∃ msg, mainSearch tokens = .usageError 2 (usageMessage msg) ∧
      (2 : Nat) ≠ 0 ∧ ∀ p, mainSearch tokens ≠ .run p := by
  rcases h with hscan | ⟨a, hscan, hinv⟩
  · exact ⟨"unrecognized or incomplete arguments",
      by simp [mainSearch, hscan], by omega,
      fun p => by simp [mainSearch, hscan]⟩
  · cases hv : validateArgs a with
    | error msg =>
        exact ⟨msg, by simp [mainSearch, hscan, hv], by omega,
          fun p => by simp [mainSearch, hscan, hv]⟩
    | ok p => exact absurd hinv (validateArgs_ok_not_invalid a p hv)

/-- Witness for C8: the empty argument list is missing the required query
flag, so `main` exits with status 2 and a usage error. -/
theorem cli_invalid_args_exit_witness :
    ∃ msg, mainSearch [] = .usageError 2 (usageMessage msg) ∧
      (2 : Nat) ≠ 0 ∧ ∀ p, mainSearch [] ≠ .run p :=
  cli_invalid_args_exit [] (Or.inr ⟨{}, rfl, Or.inl rfl⟩)

/-- C9: `--daily` is rejected unless `--to-executor`, `--since` and
`--until` are all given: each of the four offending argument lists of the
test-suite exits with status code 2 and a message starting with the usage
text and naming the error. -/
theorem daily_flag_prerequisites :
    (mainSearch ["--query", "trump", "--daily"] =
      .usageError 2 (usageMessage "-d/--daily requires -e/--to-executor")) ∧
    (mainSearch ["--query", "trump", "--to-executor", "file", "--daily"] =
      .usageError 2 (usageMessage "-d/--daily requires -s/--since and -u/--until")) ∧
    (mainSearch ["--query", "trump", "--since", "2019-03-21", "--to-executor",
        "file", "--daily"] =
      .usageError 2 (usageMessage "-d/--daily requires -s/--since and -u/--until")) ∧
    (mainSearch ["--query", "trump", "--until", "2019-03-21", "--to-executor",
        "file", "--daily"] =
      .usageError 2 (usageMessage "-d/--daily requires -s/--since and -u/--until")) ∧
    (∀ msg, textStartsWith (usageMessage msg) "usage: nasty search" = true) := by
  refine ⟨by decide, by decide, by decide, by decide, ?_⟩
  intro msg
  obtain ⟨cs⟩ := msg
  rfl

/-! ## C10 -/

theorem printResults_foldl (ts : List String) (out : List String) :
    ts.foldl (fun o t => o ++ [t ++ "\x0a"]) out =
      out ++ ts.map (fun t => t ++ "\x0a") := by
  induction ts generalizing out with
  | nil => simp
  | cons t rest ih => simp [ih]

theorem printResults_eq_map (ts : List String) :
    printResults ts = ts.map (fun t => t ++ "\x0a") := by
  rw [printResults, printResults_foldl]
  simp

/-- C10: on a direct run (no `--to-executor`), the `search` command writes
exactly the retrieved tweets to standard output, one JSON line per tweet in
emission order — `min(max_tweets, available)` lines when bounded, all
available lines when unbounded — and nothing else; with `--to-executor` it
writes nothing to standard output. -/
theorem search_stdout_spec (p : ParsedSearchArgs) (src : List (List String)) :
    (p.toExecutor = none →
      mainStdout p src =
        (Paginator.retrieve p.request src).map (fun t => t ++ "\x0a") ∧
      (∀ n, p.request.maxTweets = some n →
        (mainStdout p src).length = min n src.flatten.length) ∧
      (p.request.maxTweets = none →
        (mainStdout p src).length = src.flatten.length)) ∧
    (∀ f, p.toExecutor = some f → mainStdout p src = []) := by
  constructor
  · intro hnone
    have hm : mainStdout p src = printResults (Paginator.retrieve p.request src) := by
      rw [mainStdout, hnone]
    refine ⟨by rw [hm, printResults_eq_map], ?_, ?_⟩
    · intro n hn
      rw [hm, printResults_eq_map, List.length_map, Paginator.retrieve, hn,
        retrievePages_some_eq_take, List.length_take]
    · intro hn
      rw [hm, printResults_eq_map, List.length_map, Paginator.retrieve, hn,
        retrievePages_none_eq_flatten]
  · intro f hf
    rw [mainStdout, hf]

/-- Witness for C10: a direct run capped at 2 against a three-tweet source
prints exactly two JSON lines. -/
theorem search_stdout_spec_witness :
    mainStdout parsedDirectRun [["t1", "t2"], ["t3"]] =
      (Paginator.retrieve parsedDirectRun.request [["t1", "t2"], ["t3"]]).map
        (fun t => t ++ "\x0a") ∧
    (mainStdout parsedDirectRun [["t1", "t2"], ["t3"]]).length =
      min 2 ([["t1", "t2"], ["t3"]] : List (List String)).flatten.length :=
  have h := (search_stdout_spec parsedDirectRun [["t1", "t2"], ["t3"]]).1 rfl
  ⟨h.1, h.2.1 2 rfl⟩
